import Mathlib

/-!
Verification of the Action Coordination Engine of
`src/coordination-engine/app.py` (openshift-aiops-platform).

The Python core is shallowly embedded here:
* the enums `ActionType`, `ActionSource`, `ActionStatus` and the dataclass
  `Action` become inductive types / a structure (the timestamp fields
  `created_at`/`started_at`/`completed_at` and the open `parameters` mapping
  are omitted: no verified property depends on their values, and wall-clock
  timestamps are not representable in a pure embedding);
* `ConflictResolver` becomes pure functions (`detect_conflicts`,
  `actionsConflict`, `resolve_conflict` and its three rules);
* the engine's mutable `actions` dict / `action_queue` list become an
  explicit `EngineState` record threaded through the operations; Python's
  in-place mutation of `Action` objects is rendered as store updates keyed
  by `id` (each stored object is reachable from the dict under its own id);
* the per-type executors (which in the source only log and sleep) are
  abstracted as a parameter `ex : Action → Except String Unit`; an executor
  exception is the `.error` case, matching the `try/except` in
  `_execute_action`;
* the statistical anomaly detector works on exact rationals; the float
  comparison `abs(z) > t` (with `z = (v - mean)/stdev`, `stdev > 0`) is
  rendered by the equivalent exact comparison `(v - mean)^2 > t^2 * var`,
  and the reported `confidence = min(0.95, |z|/4)` is carried as its square
  `min(0.95^2, z^2/16)`, which determines it uniquely (both sides are
  nonnegative); `round(·, 3)` on the ensemble confidence is a float
  formatting step and is not modelled.
-/

/- Core marks the rational-number operations `[irreducible]`, which blocks
`decide`-style evaluation in the elaborator; they are perfectly computable,
so restore the default reducibility for this development. -/
attribute [local semireducible] Rat.mul Rat.add Rat.sub Rat.inv

namespace CoordEngine

/-- `ActionType` enum from app.py. -/
inductive ActionType where
  | node_remediation
  | model_inference
  | alert_correlation
  | resource_scaling
deriving DecidableEq, Repr

/-- `ActionSource` enum from app.py. -/
inductive ActionSource where
  | deterministic
  | ai_driven
  | manual
deriving DecidableEq, Repr

/-- `ActionStatus` enum from app.py. -/
inductive ActionStatus where
  | pending
  | running
  | completed
  | failed
  | cancelled
deriving DecidableEq, Repr

/-- The `Action` dataclass (timestamps and the opaque `parameters` dict
omitted, see the header comment). `priority` is an `Int` (Python int),
`confidence` a `Rat` (exact rendering of the float, default 1.0). -/
structure Action where
  id : String
  type : ActionType
  source : ActionSource
  priority : Int
  target : String
  status : ActionStatus := .pending
  confidence : ℚ := 1
deriving DecidableEq, Repr

/-- The fixed conflicting-type set from `ConflictResolver._actions_conflict`. -/
def conflictingTypes : List (ActionType × ActionType) :=
  [(.node_remediation, .resource_scaling), (.model_inference, .alert_correlation)]

/-- `ConflictResolver._actions_conflict`: same target, or the (ordered) type
pair belongs to `conflictingTypes` in either orientation. -/
def actionsConflict (action1 action2 : Action) : Bool :=
  if action1.target = action2.target then true
  else
    decide ((action1.type, action2.type) ∈ conflictingTypes) ||
      decide ((action2.type, action1.type) ∈ conflictingTypes)

/-- `ConflictResolver.detect_conflicts`: nested loop over index pairs
`i < j` in batch order, emitting each conflicting pair `(actions[i], actions[j])`. -/
def detect_conflicts : List Action → List (Action × Action)
  | [] => []
  | a :: rest =>
      (rest.filter (fun b => actionsConflict a b)).map (fun b => (a, b)) ++
        detect_conflicts rest

/-- `ConflictResolver._resolve_same_target`: on equal targets a
`deterministic` action beats an `ai_driven` one (either direction);
otherwise no decision. -/
def resolve_same_target (action1 action2 : Action) : Option Action :=
  if action1.target ≠ action2.target then none
  else if action1.source = .deterministic ∧ action2.source = .ai_driven then
    some action1
  else if action2.source = .deterministic ∧ action1.source = .ai_driven then
    some action2
  else none

/-- `ConflictResolver._resolve_priority_conflict`: strict priority order
decides; ties give no decision. -/
def resolve_priority_conflict (action1 action2 : Action) : Option Action :=
  if action1.priority ≠ action2.priority then
    some (if action1.priority > action2.priority then action1 else action2)
  else none

/-- The confidence threshold in `_resolve_low_confidence`. -/
def confidence_threshold : ℚ := 7/10

/-- `ConflictResolver._resolve_low_confidence`: an `ai_driven` action with
confidence below 0.7 loses (first argument checked first). -/
def resolve_low_confidence (action1 action2 : Action) : Option Action :=
  if action1.source = .ai_driven ∧ action1.confidence < confidence_threshold then
    some action2
  else if action2.source = .ai_driven ∧ action2.confidence < confidence_threshold then
    some action1
  else none

/-- `ConflictResolver.resolve_conflict`: the three rules in dict order
(`same_target`, `priority_conflict`, `low_confidence`), first `some` wins;
default `action1 if action1.priority > action2.priority else action2`. -/
def resolve_conflict (action1 action2 : Action) : Action :=
  match resolve_same_target action1 action2 with
  | some r => r
  | none =>
    match resolve_priority_conflict action1 action2 with
    | some r => r
    | none =>
      match resolve_low_confidence action1 action2 with
      | some r => r
      | none => if action1.priority > action2.priority then action1 else action2

/-! ### Engine state and the scheduler tick

`CoordinationEngine.actions` (a Python dict `id -> Action`) is a function
store, `action_queue` a list of ids.  Python mutates `Action` objects in
place; every stored object sits in the dict under its submission-time `id`,
so in-place mutation is rendered as a store write at that key. -/

/-- The mutable engine state: `self.actions` and `self.action_queue`. -/
structure EngineState where
  actions : String → Option Action
  queue : List String

/-- Write `a` into the store under `key` (Python `self.actions[key] = a`,
or in-place mutation of the object stored under `key`). -/
def storeSet (st : String → Option Action) (key : String) (a : Action) :
    String → Option Action :=
  fun i => if i = key then some a else st i

/-- `CoordinationEngine.submit_action`: unconditionally stores the action
under its id and appends the id to the queue tail; returns the id.  There
is no duplicate-id check in the source. -/
def submit_action (s : EngineState) (a : Action) : EngineState × String :=
  ({ actions := storeSet s.actions a.id a, queue := s.queue ++ [a.id] }, a.id)

/-- The body of the pending snapshot taken at the top of
`CoordinationEngine._process_next_batch`: the actions of the queued ids
whose current status is `pending`. -/
def snapshotOf (st : String → Option Action) (q : List String) : List Action :=
  q.filterMap fun i =>
    match st i with
    | some a => if a.status = .pending then some a else none
    | none => none

/-- The pending snapshot of the engine state. -/
def pendingSnapshot (s : EngineState) : List Action :=
  snapshotOf s.actions s.queue

/-- The `loser = action2 if winner == action1 else action1` line of
`_resolve_conflicts`. -/
def loserOf (action1 action2 : Action) : Action :=
  if resolve_conflict action1 action2 = action1 then action2 else action1

/-- `CoordinationEngine._resolve_conflicts`: walk the conflict pairs in
detection order; when both members are still in the working set, resolve,
drop the loser from the working set and record it as cancelled.  Returns
(kept working set, losers in processing order). -/
def resolveConflictsRun :
    List (Action × Action) → List Action → List Action × List Action
  | [], resolved => (resolved, [])
  | (action1, action2) :: rest, resolved =>
    if action1 ∈ resolved ∧ action2 ∈ resolved then
      ((resolveConflictsRun rest (resolved.erase (loserOf action1 action2))).1,
        loserOf action1 action2 ::
          (resolveConflictsRun rest (resolved.erase (loserOf action1 action2))).2)
    else
      resolveConflictsRun rest resolved

/-- The store effect of `_resolve_conflicts`: each loser's object is
mutated to status `cancelled` (the queue is *not* touched there). -/
def cancelLosers (s : EngineState) (losers : List Action) : EngineState :=
  { s with
    actions := losers.foldl (fun st l => storeSet st l.id { l with status := .cancelled }) s.actions }

/-- `CoordinationEngine._execute_action`, with the per-type executors
abstracted as `ex` (in the source they only log and sleep; an exception is
the `.error` case).  On success the action ends `completed` and its id is
removed from the queue; on an executor exception it ends `failed` and —
because the `remove` sits inside the `try` after the `completed`
assignment — its id is *not* removed from the queue. -/
def executeAction (ex : Action → Except String Unit) (s : EngineState) (a : Action) :
    EngineState :=
  match ex a with
  | .ok _ =>
      { actions := storeSet s.actions a.id { a with status := .completed }
        queue := s.queue.erase a.id }
  | .error _ =>
      { s with actions := storeSet s.actions a.id { a with status := .failed } }

/-- The `if conflicts: ... else resolved_actions = pending_actions` step of
`_process_next_batch`: the kept working set and the cancelled losers. -/
def resolvedPair (pending : List Action) : List Action × List Action :=
  if (detect_conflicts pending).isEmpty then (pending, [])
  else resolveConflictsRun (detect_conflicts pending) pending

/-- `CoordinationEngine._process_next_batch` (one scheduler tick): take the
pending snapshot, detect and resolve conflicts, mark losers cancelled, then
execute the kept actions in order. -/
def processNextBatch (ex : Action → Except String Unit) (s : EngineState) : EngineState :=
  if (pendingSnapshot s).isEmpty then s
  else
    ((resolvedPair (pendingSnapshot s)).1).foldl (executeAction ex)
      (cancelLosers s (resolvedPair (pendingSnapshot s)).2)

/-! ### REST-facing operations -/

/-- Python `ActionType(raw)`: the enum constructor; `none` is the
`ValueError` case. -/
def actionType_ofValue (raw : String) : Option ActionType :=
  if raw = "node_remediation" then some .node_remediation
  else if raw = "model_inference" then some .model_inference
  else if raw = "alert_correlation" then some .alert_correlation
  else if raw = "resource_scaling" then some .resource_scaling
  else none

/-- Python `ActionSource(raw)`. -/
def actionSource_ofValue (raw : String) : Option ActionSource :=
  if raw = "deterministic" then some .deterministic
  else if raw = "ai_driven" then some .ai_driven
  else if raw = "manual" then some .manual
  else none

/-- The JSON body of `POST /actions` (fields the route reads; `parameters`
omitted like the `Action` field). `confidence` already carries the
`data.get('confidence', 1.0)` default. -/
structure SubmitRequest where
  id : String
  type : String
  source : String
  priority : Int
  target : String
  confidence : ℚ
deriving DecidableEq, Repr

/-- The `POST /actions` Flask route: building the `Action` raises
`ValueError` (caught, HTTP 400) when `type` or `source` is not an enum
value; `priority` is passed through unchecked; on success the action is
submitted to the engine. -/
def submit_action_route (s : EngineState) (req : SubmitRequest) :
    Except String (EngineState × String) :=
  match actionType_ofValue req.type, actionSource_ofValue req.source with
  | some t, some src =>
      .ok (submit_action s
        { id := req.id, type := t, source := src, priority := req.priority,
          target := req.target, status := .pending, confidence := req.confidence })
  | _, _ => .error "invalid enum value"

/-- `severity_priority_map.get(severity, default)` from `update_incident`. -/
def severity_priority_map (sev : String) : Option Int :=
  if sev = "critical" then some 10
  else if sev = "high" then some 8
  else if sev = "medium" then some 5
  else if sev = "low" then some 2
  else none

/-- `status_map.get(status)` from `update_incident`. -/
def status_map (st : String) : Option ActionStatus :=
  if st = "open" then some .pending
  else if st = "investigating" then some .running
  else if st = "resolved" then some .completed
  else if st = "closed" then some .completed
  else if st = "cancelled" then some .cancelled
  else none

/-- The fields of a `PUT /api/v1/incidents/<id>` body that touch the
embedded state (`title`/`description`/`labels`/`affectedResources` only
edit the omitted `parameters` dict). -/
structure IncidentPatch where
  severity : Option String
  status : Option String
deriving DecidableEq, Repr

/-- `update_incident` (PUT route): 404 on unknown id; otherwise a present
`severity` rewrites `priority` (keeping it when the severity is unknown),
and a present `status` that maps under `status_map` overwrites the action's
status unconditionally — there is no terminal-state guard. -/
def update_incident (s : EngineState) (incidentId : String) (patch : IncidentPatch) :
    Except String EngineState :=
  match s.actions incidentId with
  | none => .error "Incident not found"
  | some a =>
      let a1 :=
        match patch.severity with
        | some sev => { a with priority := (severity_priority_map sev).getD a.priority }
        | none => a
      let a2 :=
        match patch.status with
        | some st =>
            match status_map st with
            | some ns => { a1 with status := ns }
            | none => a1
        | none => a1
      .ok { s with actions := storeSet s.actions incidentId a2 }

/-- `delete_incident` (DELETE route): 404 on unknown id; otherwise the
action's status is set to `cancelled` unconditionally (no terminal-state
guard) and the id is removed from the queue if present. -/
def delete_incident (s : EngineState) (incidentId : String) :
    Except String EngineState :=
  match s.actions incidentId with
  | none => .error "Incident not found"
  | some a =>
      .ok { actions := storeSet s.actions incidentId { a with status := .cancelled }
            queue := s.queue.erase incidentId }

/-! ### Anomaly detection

Numerics are exact rationals: with `stdev > 0` the float test
`abs(z) > t` (`z = (v-mean)/stdev`, `t ≥ 0`) is equivalently
`(v-mean)^2 > t^2 * var`, severity `high` iff `abs(z) > 3` iff
`(v-mean)^2 > 9 * var`, and `confidence = min(0.95, abs(z)/4)` is carried
as its square `min(0.95^2, zsq/16)` (both determine each other on
nonnegatives).  The `expected_range`/`timestamp` output fields and the
`round(·, 3)`/`analysis_timestamp` ensemble fields involve square roots or
wall-clock time and are omitted; no claim concerns them. -/

/-- One metric series (`{name, values, timestamps}`; timestamps omitted). -/
structure MetricSeries where
  name : String
  values : List ℚ
deriving DecidableEq, Repr

/-- One anomaly record emitted by `StatisticalAnomalyModel.detect_anomalies`
(the fields the aggregation reads, square-carried as explained above). -/
structure Anomaly where
  type : String
  metric : String
  value : ℚ
  zsq : ℚ
  severity : String
  confidenceSq : ℚ
deriving DecidableEq, Repr

/-- `statistics.mean`. -/
def sampleMean (vs : List ℚ) : ℚ := vs.sum / vs.length

/-- The square of `statistics.stdev` (sample variance, `n - 1` in the
denominator). -/
def sampleVar (vs : List ℚ) : ℚ :=
  ((vs.map fun v => (v - sampleMean vs) * (v - sampleMean vs)).sum) / ((vs.length : ℚ) - 1)

/-- The per-series body of `StatisticalAnomalyModel.detect_anomalies`:
skip series shorter than 3 points; when the sample deviation is positive,
flag every value whose z-score magnitude exceeds the threshold `t`. -/
def statDetectSeries (t : ℚ) (m : MetricSeries) : List Anomaly :=
  if m.values.length < 3 then []
  else
    let mean := sampleMean m.values
    let var := sampleVar m.values
    if var > 0 then
      m.values.filterMap fun v =>
        if (v - mean) * (v - mean) > t * t * var then
          some { type := "statistical_outlier", metric := m.name, value := v,
                 zsq := (v - mean) * (v - mean) / var,
                 severity := if (v - mean) * (v - mean) > 9 * var then "high" else "medium",
                 confidenceSq :=
                   min ((95 / 100 : ℚ) * (95 / 100)) ((v - mean) * (v - mean) / var / 16) }
        else none
    else []

/-- `StatisticalAnomalyModel.detect_anomalies` over the whole metric list. -/
def statDetect (t : ℚ) (metrics : List MetricSeries) : List Anomaly :=
  (metrics.map (statDetectSeries t)).flatten

/-- `AnomalyDetectionModel.get_model_info`. -/
structure ModelInfo where
  name : String
  threshold : ℚ
  trained : Bool
  version : String
deriving DecidableEq, Repr

/-- A pluggable detector of the ensemble: its name, its `get_model_info`
data, and its `detect_anomalies` method; a raised exception is the
`.error` case. -/
structure DetectorModel where
  name : String
  info : ModelInfo
  detect : List MetricSeries → Except String (List Anomaly)

/-- A per-model entry of `model_results`: on success it holds the anomaly
list, its length and the model info; on a caught exception it holds the
error text with zero anomalies (and no `model_info` key). -/
structure ModelResult where
  anomaliesCount : ℕ
  anomalies : List Anomaly
  modelInfo : Option ModelInfo
  error : Option String
deriving DecidableEq, Repr

/-- The `model_results[name]` entry written on success. -/
def successEntry (m : DetectorModel) (l : List Anomaly) : ModelResult :=
  { anomaliesCount := l.length, anomalies := l, modelInfo := some m.info, error := none }

/-- The `model_results[name]` entry written when the model raised. -/
def errorEntry (e : String) : ModelResult :=
  { anomaliesCount := 0, anomalies := [], modelInfo := none, error := some e }

/-- Python dict assignment on an insertion-ordered association list:
replace in place when the key exists, else append. -/
def dictSet {α : Type} (l : List (String × α)) (k : String) (v : α) :
    List (String × α) :=
  if l.any (fun p => p.1 = k) then
    l.map fun p => if p.1 = k then (k, v) else p
  else l ++ [(k, v)]

/-- One iteration of the model loop in
`AnomalyDetectionEngine.detect_anomalies`: try the model, record its entry,
and extend the aggregate anomaly list only on success. -/
def runModelsStep (metrics : List MetricSeries)
    (acc : List (String × ModelResult) × List Anomaly) (m : DetectorModel) :
    List (String × ModelResult) × List Anomaly :=
  match m.detect metrics with
  | .ok l => (dictSet acc.1 m.name (successEntry m l), acc.2 ++ l)
  | .error e => (dictSet acc.1 m.name (errorEntry e), acc.2)

/-- The model loop of `AnomalyDetectionEngine.detect_anomalies`. -/
def runModels (metrics : List MetricSeries) (models : List DetectorModel) :
    List (String × ModelResult) × List Anomaly :=
  models.foldl (runModelsStep metrics) ([], [])

/-- The severity dict seeded before grouping. -/
def severityBase : List (String × ℕ) :=
  [("critical", 0), ("high", 0), ("medium", 0), ("warning", 0), ("low", 0)]

/-- `severity_counts.get(severity, 0)`. -/
def dictGetNat (l : List (String × ℕ)) (k : String) : ℕ :=
  ((l.find? fun p => p.1 = k).map Prod.snd).getD 0

/-- The severity grouping loop. -/
def severityCounts (l : List Anomaly) : List (String × ℕ) :=
  l.foldl (fun acc a => dictSet acc a.severity (dictGetNat acc a.severity + 1)) severityBase

/-- The aggregate returned by `AnomalyDetectionEngine.detect_anomalies`
(the `ensemble_confidence` float average and `analysis_timestamp` are
omitted, see the section comment). -/
structure EnsembleResult where
  totalAnomalies : ℕ
  severityBreakdown : List (String × ℕ)
  anomalies : List Anomaly
  modelResults : List (String × ModelResult)
  modelsUsed : List String

/-- `AnomalyDetectionEngine.detect_anomalies`: filter the requested models
(Python `if model_names:` treats an empty list like `None`), run them all
with per-model exception isolation, and aggregate. -/
def detectAnomaliesEnsemble (models : List DetectorModel)
    (metrics : List MetricSeries) (modelNames : Option (List String)) :
    EnsembleResult :=
  let active :=
    match modelNames with
    | some (n :: ns) =>
        models.filter fun m =>
          ((n :: ns).map String.toLower).contains m.name.toLower
    | _ => models
  let rr := runModels metrics active
  { totalAnomalies := rr.2.length
    severityBreakdown := severityCounts rr.2
    anomalies := rr.2
    modelResults := rr.1
    modelsUsed := active.map (·.name) }

/-- The one built-in model, `StatisticalAnomalyModel(threshold=2.5)`. -/
def statisticalModel : DetectorModel :=
  { name := "Statistical"
    info := { name := "Statistical", threshold := 5 / 2, trained := true, version := "1.0.0" }
    detect := fun metrics => .ok (statDetect (5 / 2) metrics) }

/-- `AnomalyDetectionEngine.__init__`: the ensemble's model list. -/
def engineModels : List DetectorModel := [statisticalModel]

/-- The `model_results` entry a model contributes when run (success or
caught exception) — the standalone characterization of one loop iteration. -/
def modelEntry (metrics : List MetricSeries) (m : DetectorModel) : ModelResult :=
  match m.detect metrics with
  | .ok l => successEntry m l
  | .error e => errorEntry e

/-- The anomalies a model contributes to the aggregate list: its result on
success, nothing when it raised. -/
def modelAnomalies (metrics : List MetricSeries) (m : DetectorModel) : List Anomaly :=
  match m.detect metrics with
  | .ok l => l
  | .error _ => []

/-! ### Concrete instances used by the counterexamples and witnesses -/

/-- An empty engine (`CoordinationEngine.__init__`). -/
def emptyEngine : EngineState := { actions := fun _ => none, queue := [] }

/-- An always-succeeding executor: in the source the four `_execute_*`
bodies only log and sleep, so they never raise. -/
def execOk : Action → Except String Unit := fun _ => .ok ()

/-- C1: an `ai_driven` action with confidence 0.4 but high priority. -/
def c1low : Action :=
  { id := "a", type := .node_remediation, source := .ai_driven,
    priority := 9, target := "t1", status := .pending, confidence := 2/5 }

/-- C1: a `manual` low-priority action conflicting with `c1low` by type. -/
def c1other : Action :=
  { id := "b", type := .resource_scaling, source := .manual,
    priority := 2, target := "t2", status := .pending, confidence := 1 }

/-- C1 witness: like `c1low` but with priority equal to the opponent's. -/
def c1lowEq : Action :=
  { id := "a", type := .node_remediation, source := .ai_driven,
    priority := 2, target := "t1", status := .pending, confidence := 2/5 }

/-- C3: a low-priority `deterministic` action. -/
def c3det : Action :=
  { id := "a", type := .node_remediation, source := .deterministic,
    priority := 2, target := "t", status := .pending, confidence := 1 }

/-- C3: a high-priority `manual` action on the same target. -/
def c3man : Action :=
  { id := "b", type := .model_inference, source := .manual,
    priority := 9, target := "t", status := .pending, confidence := 1 }

/-- C3 witness: an `ai_driven` action on the same target as `c3det`. -/
def c3ai : Action :=
  { id := "b", type := .model_inference, source := .ai_driven,
    priority := 9, target := "t", status := .pending, confidence := 1 }

/-- C9: a `manual` action with priority 5. -/
def c9first : Action :=
  { id := "a", type := .node_remediation, source := .manual,
    priority := 5, target := "t1", status := .pending, confidence := 1 }

/-- C9: a type-conflicting `manual` action, also priority 5. -/
def c9second : Action :=
  { id := "b", type := .resource_scaling, source := .manual,
    priority := 5, target := "t2", status := .pending, confidence := 1 }

/-- C2/C4: a pending deterministic node remediation on `node1`. -/
def actA : Action :=
  { id := "A", type := .node_remediation, source := .deterministic,
    priority := 5, target := "node1", status := .pending, confidence := 1 }

/-- C2/C4: a pending ai_driven scaling action on the same target. -/
def actB : Action :=
  { id := "B", type := .resource_scaling, source := .ai_driven,
    priority := 9, target := "node1", status := .pending, confidence := 9/10 }

/-- C2/C4: the engine after submitting `actA` then `actB`. -/
def stAB : EngineState := (submit_action (submit_action emptyEngine actA).1 actB).1

/-- C4: a resubmission of id `"A"` with different content. -/
def actA2 : Action :=
  { id := "A", type := .node_remediation, source := .deterministic,
    priority := 7, target := "node1", status := .pending, confidence := 1 }

/-- C5: an action already in the terminal state `completed`. -/
def doneAction : Action :=
  { id := "done", type := .alert_correlation, source := .manual,
    priority := 5, target := "cluster", status := .completed, confidence := 1 }

/-- C5: an engine holding only `doneAction` (not queued — it is terminal). -/
def stDone : EngineState :=
  { actions := fun i => if i = "done" then some doneAction else none, queue := [] }

/-- C6: the spec's Scenario 4 series. -/
def cpuSeries : MetricSeries := { name := "cpu", values := [10, 10, 10, 10, 95] }

/-- C7: a submit request with valid enums but priority 99. -/
def reqPriority99 : SubmitRequest :=
  { id := "x", type := "node_remediation", source := "manual", priority := 99,
    target := "t", confidence := 1 }

/-- C7 witness: a request with an unknown action type. -/
def reqBadType : SubmitRequest :=
  { id := "y", type := "reboot_everything", source := "manual", priority := 5,
    target := "t", confidence := 1 }

/-- C8: a detector whose `detect_anomalies` always raises. -/
def failingModel : DetectorModel :=
  { name := "Failing",
    info := { name := "Failing", threshold := 0, trained := false, version := "0" },
    detect := fun _ => .error "boom" }

/-- C8: a metric list on which the statistical model does flag one point
(mean 10, sample variance 1000, z² = 8.1 > 6.25 for the value 100). -/
def c8metrics : List MetricSeries :=
  [{ name := "mem", values := [0, 0, 0, 0, 0, 0, 0, 0, 0, 100] }]

/-! ## Theorems -/

/-- C10: the conflict relation is symmetric — for every pair of actions,
`_actions_conflict(a, b)` and `_actions_conflict(b, a)` return the same
boolean (target equality is symmetric and the conflicting-type set is
checked in both orders). -/
theorem C10_actionsConflict_symm (a b : Action) :
    actionsConflict a b = actionsConflict b a := by
  unfold actionsConflict
  by_cases h : a.target = b.target
  · rw [if_pos h, if_pos h.symm]
  · have h' : ¬b.target = a.target := fun hh => h hh.symm
    rw [if_neg h, if_neg h']
    exact Bool.or_comm _ _

/-- C1 counterexample: `c1low` is `ai_driven` with confidence `0.4 < 0.7`
and conflicts with `c1other`, yet `resolve_conflict` does **not** return
`c1other`: the priority rule (9 vs 2) fires before the low-confidence
rule, so the low-confidence action wins. -/
theorem C1_counterexample :
    actionsConflict c1low c1other = true ∧
    c1low.source = .ai_driven ∧
    c1low.confidence < confidence_threshold ∧
    resolve_conflict c1low c1other ≠ c1other := by decide

/-- C1 amended: a conflicting `ai_driven` action with confidence below 0.7
loses only when its priority does not exceed the opponent's — the priority
rule runs before the low-confidence rule, so "regardless of the two
actions' priorities" fails; under `a.priority ≤ b.priority` the claim
holds. -/
theorem C1_low_confidence_loses_without_priority_gap
    (a b : Action) (hcf : actionsConflict a b = true)
    (hsrc : a.source = .ai_driven) (hlow : a.confidence < confidence_threshold)
    (hp : a.priority ≤ b.priority) :
    resolve_conflict a b = b := by
  have hst : resolve_same_target a b = none ∨ resolve_same_target a b = some b := by
    unfold resolve_same_target
    split_ifs with h1 h2 h3
    · exact Or.inl rfl
    · simp [hsrc] at h2
    · exact Or.inr rfl
    · exact Or.inl rfl
  unfold resolve_conflict
  rcases hst with hst | hst <;> rw [hst]
  by_cases hpe : a.priority = b.priority
  · have hpc : resolve_priority_conflict a b = none := by
      unfold resolve_priority_conflict; simp [hpe]
    have hlc : resolve_low_confidence a b = some b := by
      unfold resolve_low_confidence; simp [hsrc, hlow]
    rw [hpc, hlc]
  · have hpc : resolve_priority_conflict a b = some b := by
      unfold resolve_priority_conflict
      simp only [ne_eq, hpe, not_false_iff, if_true, if_pos]
      simp [not_lt.mpr hp]
    rw [hpc]

/-- C1 witness: with equal priorities the amended statement applies and the
low-confidence action indeed loses. -/
theorem C1_witness :
    actionsConflict c1lowEq c1other = true ∧
    c1lowEq.source = .ai_driven ∧
    c1lowEq.confidence < confidence_threshold ∧
    c1lowEq.priority ≤ c1other.priority ∧
    resolve_conflict c1lowEq c1other = c1other :=
  ⟨by decide, by decide, by decide, by decide,
    C1_low_confidence_loses_without_priority_gap c1lowEq c1other
      (by decide) (by decide) (by decide) (by decide)⟩

/-- C3 counterexample: same target, exactly one action `deterministic`
(the other is `manual`), yet the deterministic one does **not** win:
`_resolve_same_target` only beats `ai_driven`, so resolution falls through
to the priority rule and the manual priority-9 action wins. -/
theorem C3_counterexample :
    c3det.target = c3man.target ∧
    c3det.source = .deterministic ∧
    c3man.source ≠ .deterministic ∧
    resolve_conflict c3det c3man ≠ c3det := by decide

/-- C3 amended: on equal targets a `deterministic`-sourced action beats an
`ai_driven`-sourced action in either direction, regardless of priority —
but only against `ai_driven`; against `manual` the rule does not apply. -/
theorem C3_deterministic_beats_ai_on_same_target
    (a b : Action) (ht : a.target = b.target) :
    (a.source = .deterministic → b.source = .ai_driven → resolve_conflict a b = a) ∧
    (b.source = .deterministic → a.source = .ai_driven → resolve_conflict a b = b) := by
  constructor
  · intro ha hb
    have hst : resolve_same_target a b = some a := by
      unfold resolve_same_target; simp [ht, ha, hb]
    unfold resolve_conflict; rw [hst]
  · intro hb ha
    have hst : resolve_same_target a b = some b := by
      unfold resolve_same_target; simp [ht, ha, hb]
    unfold resolve_conflict; rw [hst]

/-- C3 witness: a low-priority deterministic action beats a priority-9
`ai_driven` action on the same target. -/
theorem C3_witness :
    c3det.target = c3ai.target ∧
    resolve_conflict c3det c3ai = c3det :=
  ⟨by decide,
    (C3_deterministic_beats_ai_on_same_target c3det c3ai (by decide)).1
      (by decide) (by decide)⟩

/-- C9 counterexample: equal priorities and none of the three rules
decides, yet `resolve_conflict` returns the **second** argument, not the
first — the default `action1 if action1.priority > action2.priority else
action2` resolves a tie to `action2`. -/
theorem C9_counterexample :
    resolve_same_target c9first c9second = none ∧
    resolve_priority_conflict c9first c9second = none ∧
    resolve_low_confidence c9first c9second = none ∧
    c9first.priority = c9second.priority ∧
    resolve_conflict c9first c9second ≠ c9first := by decide

/-- C9 amended: when the three rules decline and the priorities are equal,
`resolve_conflict` returns its second argument — i.e. the action appearing
**later** in the batch (detect_conflicts emits pairs in submission order),
not the earlier one. -/
theorem C9_tie_returns_second_argument (a b : Action)
    (hst : resolve_same_target a b = none)
    (hpe : a.priority = b.priority)
    (hlc : resolve_low_confidence a b = none) :
    resolve_conflict a b = b := by
  have hpc : resolve_priority_conflict a b = none := by
    unfold resolve_priority_conflict; simp [hpe]
  unfold resolve_conflict
  rw [hst, hpc, hlc]
  simp [hpe]

/-- C9 witness: the amended statement applied to the tied pair. -/
theorem C9_witness :
    resolve_same_target c9first c9second = none ∧
    c9first.priority = c9second.priority ∧
    resolve_low_confidence c9first c9second = none ∧
    resolve_conflict c9first c9second = c9second :=
  ⟨by decide, by decide, by decide,
    C9_tie_returns_second_argument c9first c9second (by decide) (by decide) (by decide)⟩

/-- C4 counterexample: id `"A"` is already present in `stAB`, yet
resubmitting it does not fail — the store entry is overwritten and the
queue gains a second copy of `"A"`. -/
theorem C4_counterexample :
    stAB.actions "A" = some actA ∧
    (submit_action stAB actA2).2 = "A" ∧
    (submit_action stAB actA2).1.actions "A" = some actA2 ∧
    (submit_action stAB actA2).1.queue = ["A", "B", "A"] := by decide

/-- C4 amended: `submit_action` performs no duplicate-id check — even when
the id is already present it succeeds, overwrites the stored action and
appends the id to the queue tail (so resubmission does create a second
queue copy, the opposite of the claim). -/
theorem C4_submit_has_no_duplicate_check (s : EngineState) (a : Action)
    (h : (s.actions a.id).isSome = true) :
    (submit_action s a).2 = a.id ∧
    (submit_action s a).1.actions a.id = some a ∧
    (submit_action s a).1.queue = s.queue ++ [a.id] := by
  refine ⟨rfl, ?_, rfl⟩
  simp [submit_action, storeSet]

/-- C4 witness: the amended statement at the duplicate submission. -/
theorem C4_witness :
    (stAB.actions actA2.id).isSome = true ∧
    ((submit_action stAB actA2).2 = actA2.id ∧
      (submit_action stAB actA2).1.actions actA2.id = some actA2 ∧
      (submit_action stAB actA2).1.queue = stAB.queue ++ [actA2.id]) :=
  ⟨by decide, C4_submit_has_no_duplicate_check stAB actA2 (by decide)⟩

/-- C5 counterexample: `doneAction` is terminal (`completed`), yet the
DELETE route succeeds and moves it to `cancelled`, and the PUT route with
status `"open"` moves it back to `pending` — both operations move an
action out of a terminal state. -/
theorem C5_counterexample :
    stDone.actions "done" = some doneAction ∧
    doneAction.status = .completed ∧
    (((delete_incident stDone "done").toOption.bind fun s => s.actions "done").map
      Action.status) = some .cancelled ∧
    (((update_incident stDone "done"
        { severity := none, status := some "open" }).toOption.bind fun s =>
          s.actions "done").map Action.status) = some .pending := by decide

/-- C5 amended: neither route protects terminal states — for every stored
action (whatever its status, terminal included) the DELETE route succeeds
and rewrites the status to `cancelled`, and the PUT route overwrites the
status with any value its `status_map` yields. -/
theorem C5_terminal_states_not_protected (s : EngineState) (i : String) (a : Action)
    (h : s.actions i = some a) :
    delete_incident s i =
      .ok { actions := storeSet s.actions i { a with status := .cancelled },
            queue := s.queue.erase i } ∧
    (∀ st ns, status_map st = some ns →
      update_incident s i { severity := none, status := some st } =
        .ok { s with actions := storeSet s.actions i { a with status := ns } }) := by
  constructor
  · unfold delete_incident
    rw [h]
  · intro st ns hm
    unfold update_incident
    rw [h]
    simp only [hm]

/-- C5 witness: the amended statement applied to the completed action. -/
theorem C5_witness :
    stDone.actions "done" = some doneAction ∧
    doneAction.status = .completed ∧
    delete_incident stDone "done" =
      .ok { actions := storeSet stDone.actions "done" { doneAction with status := .cancelled },
            queue := stDone.queue.erase "done" } ∧
    update_incident stDone "done" { severity := none, status := some "open" } =
      .ok { stDone with
            actions := storeSet stDone.actions "done" { doneAction with status := .pending } } :=
  ⟨by decide, by decide,
    (C5_terminal_states_not_protected stDone "done" doneAction (by decide)).1,
    (C5_terminal_states_not_protected stDone "done" doneAction (by decide)).2
      "open" .pending (by decide)⟩

/-- C7 counterexample: a request with valid enums but priority 99 (outside
1–10) is accepted and enqueued — the route never validates the priority
range. -/
theorem C7_counterexample :
    ¬(1 ≤ reqPriority99.priority ∧ reqPriority99.priority ≤ 10) ∧
    ((submit_action_route emptyEngine reqPriority99).toOption.map fun p => p.1.queue)
      = some ["x"] := by decide

/-- C7 amended: the submit route rejects synchronously (nothing enqueued)
exactly when `type` or `source` is not an enum value; `priority` is not
validated, so any priority — in range or not — is accepted and enqueued
once the enums parse. -/
theorem C7_route_validates_enums_not_priority (s : EngineState) (req : SubmitRequest) :
    (∀ t src, actionType_ofValue req.type = some t →
      actionSource_ofValue req.source = some src →
      submit_action_route s req = .ok (submit_action s
        { id := req.id, type := t, source := src, priority := req.priority,
          target := req.target, status := .pending, confidence := req.confidence })) ∧
    ((actionType_ofValue req.type = none ∨ actionSource_ofValue req.source = none) →
      submit_action_route s req = .error "invalid enum value") := by
  constructor
  · intro t src ht hs
    unfold submit_action_route
    rw [ht, hs]
  · intro h
    unfold submit_action_route
    rcases h with h | h
    · rw [h]
    · rw [h]
      cases actionType_ofValue req.type <;> rfl

/-- C7 witness: the amended statement at a bad-type request (rejected) and
at the priority-99 request (accepted). -/
theorem C7_witness :
    actionType_ofValue reqBadType.type = none ∧
    submit_action_route emptyEngine reqBadType = .error "invalid enum value" ∧
    actionType_ofValue reqPriority99.type = some .node_remediation ∧
    actionSource_ofValue reqPriority99.source = some .manual ∧
    submit_action_route emptyEngine reqPriority99 = .ok (submit_action emptyEngine
      { id := reqPriority99.id, type := .node_remediation, source := .manual,
        priority := reqPriority99.priority, target := reqPriority99.target,
        status := .pending, confidence := reqPriority99.confidence }) :=
  ⟨by decide,
    (C7_route_validates_enums_not_priority emptyEngine reqBadType).2 (Or.inl (by decide)),
    by decide, by decide,
    (C7_route_validates_enums_not_priority emptyEngine reqPriority99).1
      .node_remediation .manual (by decide) (by decide)⟩

/-- C6 counterexample: on the series `cpu = [10,10,10,10,95]` the ensemble
does **not** report one anomaly — the sample deviation is √1445 ≈ 38.01,
the largest z-score magnitude is 68/√1445 ≈ 1.79 < 2.5, so nothing is
flagged. -/
theorem C6_counterexample :
    (detectAnomaliesEnsemble engineModels [cpuSeries] none).totalAnomalies ≠ 1 := by decide

/-- C6 amended: on `cpu = [10,10,10,10,95]` the built-in z-score detector
flags no point at all (max |z| ≈ 1.79 stays below the 2.5 threshold), so
`total_anomalies = 0` and the statistical model returns an empty anomaly
list. -/
theorem C6_scenario_total_anomalies_zero :
    (detectAnomaliesEnsemble engineModels [cpuSeries] none).totalAnomalies = 0 ∧
    statDetect (5 / 2) [cpuSeries] = [] := by decide

/-- Dict assignment with a key absent from the list appends the pair. -/
theorem dictSet_fresh {α : Type} {l : List (String × α)} {k : String} (v : α)
    (h : ∀ p ∈ l, ¬p.1 = k) : dictSet l k v = l ++ [(k, v)] := by
  unfold dictSet
  rw [if_neg]
  simp only [List.any_eq_true, decide_eq_true_eq, not_exists, not_and]
  exact h

/-- Unrolling the ensemble's model loop from an arbitrary accumulator,
when the pending model names are fresh for the accumulated results and
pairwise distinct: each model appends its standalone entry and its
anomaly contribution. -/
theorem runModels_fold (metrics : List MetricSeries) (models : List DetectorModel) :
    ∀ acc : List (String × ModelResult) × List Anomaly,
      (∀ m ∈ models, ∀ p ∈ acc.1, ¬p.1 = m.name) →
      (models.map (fun m => m.name)).Nodup →
      models.foldl (runModelsStep metrics) acc =
        (acc.1 ++ models.map (fun m => (m.name, modelEntry metrics m)),
         acc.2 ++ (models.map (modelAnomalies metrics)).flatten) := by
  induction models with
  | nil => intro acc _ _; simp
  | cons m rest ih =>
    intro acc hfresh hnodup
    have hstep : runModelsStep metrics acc m =
        (acc.1 ++ [(m.name, modelEntry metrics m)], acc.2 ++ modelAnomalies metrics m) := by
      cases hd : m.detect metrics with
      | ok l =>
        simp only [runModelsStep, modelEntry, modelAnomalies, hd]
        rw [dictSet_fresh _ (fun p hp => hfresh m (by simp) p hp)]
      | error e =>
        simp only [runModelsStep, modelEntry, modelAnomalies, hd]
        rw [dictSet_fresh _ (fun p hp => hfresh m (by simp) p hp)]
        simp
    have hmem : m.name ∉ rest.map (fun m' => m'.name) := by
      intro hmm
      exact (List.nodup_cons.mp (by simpa using hnodup)).1 hmm
    have hfresh' : ∀ m' ∈ rest, ∀ p ∈ acc.1 ++ [(m.name, modelEntry metrics m)], ¬p.1 = m'.name := by
      intro m' hm' p hp
      rcases List.mem_append.mp hp with hp | hp
      · exact hfresh m' (by simp [hm']) p hp
      · have hp2 : p = (m.name, modelEntry metrics m) := by simpa using hp
        subst hp2
        intro hc
        apply hmem
        rw [show m.name = m'.name from hc]
        exact List.mem_map_of_mem (fun m' => m'.name) hm'
    have hnodup' : (rest.map (fun m => m.name)).Nodup :=
      (List.nodup_cons.mp (by simpa using hnodup)).2
    rw [List.foldl_cons, hstep, ih _ hfresh' hnodup']
    simp [List.append_assoc]

/-- C8: a detector exception inside the ensemble is isolated — the call
still returns, the failing detector's `model_results` entry is the error
entry with zero anomalies, its anomalies are excluded from the aggregate
list, and the other detectors contribute exactly their standalone entries
and anomalies. (Stated for any split `pre ++ m :: post` of a model list
with distinct names, matching the dict keyed by model name.) -/
theorem C8_detector_exception_isolated (pre post : List DetectorModel)
    (m : DetectorModel) (metrics : List MetricSeries) (e : String)
    (he : m.detect metrics = .error e)
    (hnodup : ((pre ++ m :: post).map (fun m' => m'.name)).Nodup) :
    (detectAnomaliesEnsemble (pre ++ m :: post) metrics none).modelResults =
        pre.map (fun m' => (m'.name, modelEntry metrics m'))
          ++ (m.name, errorEntry e) :: post.map (fun m' => (m'.name, modelEntry metrics m')) ∧
    (detectAnomaliesEnsemble (pre ++ m :: post) metrics none).anomalies =
        (pre.map (modelAnomalies metrics)).flatten
          ++ (post.map (modelAnomalies metrics)).flatten ∧
    (detectAnomaliesEnsemble (pre ++ m :: post) metrics none).totalAnomalies =
        ((pre.map (modelAnomalies metrics)).flatten
          ++ (post.map (modelAnomalies metrics)).flatten).length ∧
    (errorEntry e).anomaliesCount = 0 ∧ (errorEntry e).anomalies = [] := by
  have hrun := runModels_fold metrics (pre ++ m :: post) ([], []) (by simp) hnodup
  have hentry : modelEntry metrics m = errorEntry e := by
    unfold modelEntry; rw [he]
  have hanom : modelAnomalies metrics m = [] := by
    unfold modelAnomalies; rw [he]
  have h1 : runModels metrics (pre ++ m :: post) =
      ((pre ++ m :: post).map (fun m' => (m'.name, modelEntry metrics m')),
       ((pre ++ m :: post).map (modelAnomalies metrics)).flatten) := by
    unfold runModels
    rw [hrun]
    simp
  refine ⟨?_, ?_, ?_, rfl, rfl⟩
  · show (runModels metrics (pre ++ m :: post)).1 = _
    rw [h1]
    simp [hentry]
  · show (runModels metrics (pre ++ m :: post)).2 = _
    rw [h1]
    simp [hanom]
  · show (runModels metrics (pre ++ m :: post)).2.length = _
    rw [h1]
    simp [hanom]

/-- C8 witness: the built-in statistical model plus an always-raising
model — the ensemble returns, records the error with zero anomalies, and
keeps the statistical model's single flagged point. -/
theorem C8_witness :
    failingModel.detect c8metrics = .error "boom" ∧
    (([statisticalModel] ++ failingModel :: []).map (fun m' => m'.name)).Nodup ∧
    ((detectAnomaliesEnsemble ([statisticalModel] ++ failingModel :: [])
        c8metrics none).modelResults =
      [statisticalModel].map (fun m' => (m'.name, modelEntry c8metrics m'))
        ++ (failingModel.name, errorEntry "boom")
          :: ([] : List DetectorModel).map (fun m' => (m'.name, modelEntry c8metrics m')) ∧
    (detectAnomaliesEnsemble ([statisticalModel] ++ failingModel :: [])
        c8metrics none).anomalies =
      ([statisticalModel].map (modelAnomalies c8metrics)).flatten
        ++ (([] : List DetectorModel).map (modelAnomalies c8metrics)).flatten ∧
    (detectAnomaliesEnsemble ([statisticalModel] ++ failingModel :: [])
        c8metrics none).totalAnomalies =
      (([statisticalModel].map (modelAnomalies c8metrics)).flatten
        ++ (([] : List DetectorModel).map (modelAnomalies c8metrics)).flatten).length ∧
    (errorEntry "boom").anomaliesCount = 0 ∧ (errorEntry "boom").anomalies = []) :=
  ⟨rfl, by decide,
    C8_detector_exception_isolated [statisticalModel] [] failingModel c8metrics "boom"
      rfl (by decide)⟩

/-- On a well-formed queue (each id maps to a pending action stored under
its own id) the snapshot's ids are exactly the queue. -/
theorem snapshotOf_map_id (st : String → Option Action) :
    ∀ q : List String,
      (∀ i ∈ q, ∃ a, st i = some a ∧ a.id = i ∧ a.status = .pending) →
      (snapshotOf st q).map (fun a => a.id) = q := by
  intro q
  induction q with
  | nil => intro _; rfl
  | cons i q ih =>
    intro hq
    obtain ⟨a, ha, hid, hstat⟩ := hq i (by simp)
    have hcons : snapshotOf st (i :: q) = a :: snapshotOf st q := by
      unfold snapshotOf
      rw [List.filterMap_cons]
      rw [ha]
      simp [hstat]
    rw [hcons, List.map_cons, hid, ih (fun j hj => hq j (by simp [hj]))]

/-- Every snapshot member is stored under its own id with pending status. -/
theorem snapshotOf_mem (st : String → Option Action) (q : List String)
    (hq : ∀ i ∈ q, ∃ a, st i = some a ∧ a.id = i ∧ a.status = .pending) :
    ∀ a ∈ snapshotOf st q, st a.id = some a ∧ a.status = .pending := by
  intro a ha
  obtain ⟨i, hi, hfa⟩ := List.mem_filterMap.mp ha
  obtain ⟨a', ha', hid', hstat'⟩ := hq i hi
  rw [ha'] at hfa
  have hfa' : (if a'.status = ActionStatus.pending then some a' else none) = some a := hfa
  rw [if_pos hstat'] at hfa'
  have haa : a' = a := Option.some.inj hfa'
  subst haa
  exact ⟨hid' ▸ ha', hstat'⟩

/-- The kept set and the losers of `_resolve_conflicts` partition the
working set (as a permutation): every pending action ends up kept or
cancelled, exactly once. -/
theorem resolveConflictsRun_perm :
    ∀ (cs : List (Action × Action)) (res : List Action),
      List.Perm ((resolveConflictsRun cs res).1 ++ (resolveConflictsRun cs res).2) res := by
  intro cs
  induction cs with
  | nil => intro res; simp [resolveConflictsRun]
  | cons p rest ih =>
    intro res
    obtain ⟨a1, a2⟩ := p
    by_cases hmem : a1 ∈ res ∧ a2 ∈ res
    · have hloser : loserOf a1 a2 ∈ res := by
        unfold loserOf
        split_ifs
        · exact hmem.2
        · exact hmem.1
      rw [resolveConflictsRun, if_pos hmem]
      refine List.Perm.trans List.perm_middle ?_
      refine List.Perm.trans ((ih (res.erase (loserOf a1 a2))).cons _) ?_
      exact (List.perm_cons_erase hloser).symm
    · rw [resolveConflictsRun, if_neg hmem]
      exact ih res

/-- The kept set and the losers of the whole resolution step partition the
pending snapshot. -/
theorem resolvedPair_perm (pending : List Action) :
    List.Perm ((resolvedPair pending).1 ++ (resolvedPair pending).2) pending := by
  unfold resolvedPair
  split_ifs
  · simp
  · exact resolveConflictsRun_perm _ pending

/-- One execution step only removes ids from the queue. -/
theorem executeAction_queue_sub (ex : Action → Except String Unit)
    (s : EngineState) (a : Action) : (executeAction ex s a).queue ⊆ s.queue := by
  unfold executeAction
  cases ex a
  · exact fun _ h => h
  · exact fun i h => List.mem_of_mem_erase h

/-- One execution step preserves queue distinctness. -/
theorem executeAction_queue_nodup (ex : Action → Except String Unit)
    (s : EngineState) (a : Action) (h : s.queue.Nodup) :
    (executeAction ex s a).queue.Nodup := by
  unfold executeAction
  cases ex a
  · exact h
  · exact h.erase _

/-- Executing a batch only removes ids from the queue. -/
theorem execFold_queue_sub (ex : Action → Except String Unit) :
    ∀ (ks : List Action) (s : EngineState),
      (ks.foldl (executeAction ex) s).queue ⊆ s.queue := by
  intro ks
  induction ks with
  | nil => intro s; exact fun _ h => h
  | cons a ks ih =>
    intro s
    exact fun i hi => executeAction_queue_sub ex s a (ih (executeAction ex s a) hi)

/-- Executing a batch preserves queue distinctness. -/
theorem execFold_queue_nodup (ex : Action → Except String Unit) :
    ∀ (ks : List Action) (s : EngineState), s.queue.Nodup →
      (ks.foldl (executeAction ex) s).queue.Nodup := by
  intro ks
  induction ks with
  | nil => intro s h; exact h
  | cons a ks ih =>
    intro s h
    exact ih (executeAction ex s a) (executeAction_queue_nodup ex s a h)

/-- Executing actions whose ids differ from `i` neither rewrites the store
at `i` nor changes whether `i` is queued. -/
theorem execFold_untouched (ex : Action → Except String Unit) :
    ∀ (ks : List Action) (s : EngineState) (i : String),
      (∀ a ∈ ks, ¬a.id = i) →
      (ks.foldl (executeAction ex) s).actions i = s.actions i ∧
        (i ∈ (ks.foldl (executeAction ex) s).queue ↔ i ∈ s.queue) := by
  intro ks
  induction ks with
  | nil => intro s i _; exact ⟨rfl, Iff.rfl⟩
  | cons a ks ih =>
    intro s i hne
    have hstep : (executeAction ex s a).actions i = s.actions i ∧
        (i ∈ (executeAction ex s a).queue ↔ i ∈ s.queue) := by
      have hai : ¬a.id = i := hne a (by simp)
      unfold executeAction
      cases ex a
      case ok =>
        constructor
        · show storeSet s.actions a.id { a with status := .completed } i = s.actions i
          unfold storeSet
          rw [if_neg (fun h => hai h.symm)]
        · exact List.mem_erase_of_ne (fun h => hai h.symm)
      case error =>
        constructor
        · show storeSet s.actions a.id { a with status := .failed } i = s.actions i
          unfold storeSet
          rw [if_neg (fun h => hai h.symm)]
        · exact Iff.rfl
    obtain ⟨h1, h2⟩ := ih (executeAction ex s a) i (fun b hb => hne b (by simp [hb]))
    exact ⟨h1.trans hstep.1, h2.trans hstep.2⟩

/-- A kept action whose executor raises ends stored as `failed` (under its
own id), provided the batch ids are distinct. -/
theorem execFold_store_failed (ex : Action → Except String Unit) :
    ∀ (ks : List Action) (s : EngineState) (a : Action) (e : String),
      (ks.map (fun a => a.id)).Nodup → a ∈ ks → ex a = .error e →
      (ks.foldl (executeAction ex) s).actions a.id =
        some { a with status := .failed } := by
  intro ks
  induction ks with
  | nil => intro s a e _ ha _; exact absurd ha (List.not_mem_nil a)
  | cons x ks ih =>
    intro s a e hnd ha hex
    have hnd' : (ks.map (fun a => a.id)).Nodup := (List.nodup_cons.mp hnd).2
    rcases List.mem_cons.mp ha with rfl | ha
    · have hrest : ∀ b ∈ ks, ¬b.id = a.id := by
        intro b hb hc
        apply (List.nodup_cons.mp hnd).1
        show a.id ∈ List.map (fun a => a.id) ks
        rw [← hc]
        exact List.mem_map_of_mem (fun a => a.id) hb
      rw [List.foldl_cons,
        (execFold_untouched ex ks (executeAction ex s a) a.id hrest).1]
      unfold executeAction
      rw [hex]
      show storeSet s.actions a.id { a with status := .failed } a.id = _
      unfold storeSet
      rw [if_pos rfl]
    · exact ih (executeAction ex s x) a e hnd' ha hex

/-- A kept action whose executor succeeds has its id removed from the
queue by the batch execution (and it is never re-added). -/
theorem execFold_ok_removed (ex : Action → Except String Unit) :
    ∀ (ks : List Action) (s : EngineState) (a : Action) (u : Unit),
      (ks.map (fun a => a.id)).Nodup → s.queue.Nodup → a ∈ ks → ex a = .ok u →
      a.id ∉ (ks.foldl (executeAction ex) s).queue := by
  intro ks
  induction ks with
  | nil => intro s a u _ _ ha _; exact absurd ha (List.not_mem_nil a)
  | cons x ks ih =>
    intro s a u hnd hq ha hex
    have hnd' : (ks.map (fun a => a.id)).Nodup := (List.nodup_cons.mp hnd).2
    rcases List.mem_cons.mp ha with rfl | ha
    · have hstep : a.id ∉ (executeAction ex s a).queue := by
        unfold executeAction
        rw [hex]
        show a.id ∉ s.queue.erase a.id
        intro hmem
        exact ((List.Nodup.mem_erase_iff hq).mp hmem).1 rfl
      intro hmem
      exact hstep (execFold_queue_sub ex ks (executeAction ex s a) hmem)
    · exact ih (executeAction ex s x) a u hnd'
        (executeAction_queue_nodup ex s x hq) ha hex

/-- Marking losers whose ids differ from `i` leaves the store at `i`
unchanged. -/
theorem cancelFold_untouched :
    ∀ (ls : List Action) (st : String → Option Action) (i : String),
      (∀ l ∈ ls, ¬l.id = i) →
      ls.foldl (fun st l => storeSet st l.id { l with status := .cancelled }) st i = st i := by
  intro ls
  induction ls with
  | nil => intro st i _; rfl
  | cons l ls ih =>
    intro st i hne
    rw [List.foldl_cons, ih _ i (fun b hb => hne b (by simp [hb]))]
    unfold storeSet
    rw [if_neg (fun h => hne l (by simp) h.symm)]

/-- Each loser ends stored as `cancelled` under its own id, provided the
losers' ids are distinct. -/
theorem cancelFold_hit :
    ∀ (ls : List Action) (st : String → Option Action) (l : Action),
      (ls.map (fun a => a.id)).Nodup → l ∈ ls →
      ls.foldl (fun st l => storeSet st l.id { l with status := .cancelled }) st l.id =
        some { l with status := .cancelled } := by
  intro ls
  induction ls with
  | nil => intro st l _ hl; exact absurd hl (List.not_mem_nil l)
  | cons x ls ih =>
    intro st l hnd hl
    have hnd' : (ls.map (fun a => a.id)).Nodup := (List.nodup_cons.mp hnd).2
    rcases List.mem_cons.mp hl with rfl | hl
    · have hrest : ∀ b ∈ ls, ¬b.id = l.id := by
        intro b hb hc
        apply (List.nodup_cons.mp hnd).1
        show l.id ∈ List.map (fun a => a.id) ls
        rw [← hc]
        exact List.mem_map_of_mem (fun a => a.id) hb
      rw [List.foldl_cons, cancelFold_untouched ls _ l.id hrest]
      unfold storeSet
      rw [if_pos rfl]
    · exact ih _ l hnd' hl

/-- C2 counterexample: after a tick on two conflicting pending actions the
loser `B` is cancelled but its id is **not** removed from the queue —
`_resolve_conflicts` never touches the queue, so the queue retains an id
whose status is `cancelled`. -/
theorem C2_counterexample :
    (processNextBatch execOk stAB).queue = ["B"] ∧
    ((processNextBatch execOk stAB).actions "B").map Action.status =
      some .cancelled := by decide

/-- C2 amended: after a tick on a well-formed state (distinct queued ids,
each stored under its own id with pending status), every id remaining in
the queue refers to an action whose status is `cancelled` or `failed` —
pending ids never survive a tick and completed ids are removed, but
contrary to the claim, ids cancelled by conflict resolution and ids of
failed actions stay in the queue (only the successful path executes the
queue `remove`). -/
theorem C2_tick_keeps_cancelled_and_failed_ids (ex : Action → Except String Unit)
    (s : EngineState) (hnd : s.queue.Nodup)
    (hq : ∀ i ∈ s.queue, ∃ a, s.actions i = some a ∧ a.id = i ∧ a.status = .pending) :
    ∀ i ∈ (processNextBatch ex s).queue,
      ∃ a, (processNextBatch ex s).actions i = some a ∧
        (a.status = .cancelled ∨ a.status = .failed) := by
  intro i hi
  have hmapid : (pendingSnapshot s).map (fun a => a.id) = s.queue :=
    snapshotOf_map_id s.actions s.queue hq
  cases hempty : (pendingSnapshot s).isEmpty
  case true =>
    have hpnil : pendingSnapshot s = [] := by
      cases hps : pendingSnapshot s
      · rfl
      · rw [hps] at hempty; exact absurd hempty (by simp)
    have hqnil : s.queue = [] := by rw [← hmapid, hpnil]; rfl
    unfold processNextBatch at hi
    rw [if_pos hempty] at hi
    rw [hqnil] at hi
    exact absurd hi (List.not_mem_nil i)
  case false =>
    unfold processNextBatch at hi ⊢
    rw [if_neg (by simp [hempty])] at hi ⊢
    have hperm : List.Perm ((resolvedPair (pendingSnapshot s)).1 ++
        (resolvedPair (pendingSnapshot s)).2) (pendingSnapshot s) := resolvedPair_perm _
    have hqueue_s1 : (cancelLosers s (resolvedPair (pendingSnapshot s)).2).queue = s.queue := rfl
    have hiq : i ∈ s.queue := by
      have hsub := execFold_queue_sub ex (resolvedPair (pendingSnapshot s)).1
        (cancelLosers s (resolvedPair (pendingSnapshot s)).2) hi
      rwa [hqueue_s1] at hsub
    obtain ⟨a0, ha0mem, ha0id⟩ : ∃ a ∈ pendingSnapshot s, a.id = i := by
      rw [← hmapid] at hiq
      obtain ⟨a, ha, haid⟩ := List.mem_map.mp hiq
      exact ⟨a, ha, haid⟩
    have hndp : (((resolvedPair (pendingSnapshot s)).1 ++
        (resolvedPair (pendingSnapshot s)).2).map (fun a => a.id)).Nodup := by
      have h1 := hperm.map (fun a => a.id)
      rw [hmapid] at h1
      exact h1.nodup_iff.mpr hnd
    rw [List.map_append] at hndp
    have hdisj := List.disjoint_of_nodup_append hndp
    have hkeptnd : ((resolvedPair (pendingSnapshot s)).1.map (fun a => a.id)).Nodup :=
      hndp.of_append_left
    have hlosnd : ((resolvedPair (pendingSnapshot s)).2.map (fun a => a.id)).Nodup :=
      hndp.of_append_right
    have hin : a0 ∈ (resolvedPair (pendingSnapshot s)).1 ++
        (resolvedPair (pendingSnapshot s)).2 := hperm.mem_iff.mpr ha0mem
    rcases List.mem_append.mp hin with hk | hl
    · cases hex : ex a0 with
      | error e =>
        refine ⟨{ a0 with status := .failed }, ?_, Or.inr rfl⟩
        rw [← ha0id]
        exact execFold_store_failed ex (resolvedPair (pendingSnapshot s)).1
          (cancelLosers s (resolvedPair (pendingSnapshot s)).2) a0 e hkeptnd hk hex
      | ok u =>
        exfalso
        have hnot : a0.id ∉ ((resolvedPair (pendingSnapshot s)).1.foldl (executeAction ex)
            (cancelLosers s (resolvedPair (pendingSnapshot s)).2)).queue :=
          execFold_ok_removed ex (resolvedPair (pendingSnapshot s)).1
            (cancelLosers s (resolvedPair (pendingSnapshot s)).2) a0 u hkeptnd
            (by rw [hqueue_s1]; exact hnd) hk hex
        rw [ha0id] at hnot
        exact hnot hi
    · refine ⟨{ a0 with status := .cancelled }, ?_, Or.inl rfl⟩
      have hkne : ∀ b ∈ (resolvedPair (pendingSnapshot s)).1, ¬b.id = i := by
        intro b hb hc
        have h1 : b.id ∈ (resolvedPair (pendingSnapshot s)).1.map (fun a => a.id) :=
          List.mem_map_of_mem (fun a => a.id) hb
        have h2 : b.id ∈ (resolvedPair (pendingSnapshot s)).2.map (fun a => a.id) := by
          rw [hc, ← ha0id]
          exact List.mem_map_of_mem (fun a => a.id) hl
        exact hdisj h1 h2
      rw [(execFold_untouched ex (resolvedPair (pendingSnapshot s)).1
        (cancelLosers s (resolvedPair (pendingSnapshot s)).2) i hkne).1]
      show (resolvedPair (pendingSnapshot s)).2.foldl
        (fun st l => storeSet st l.id { l with status := .cancelled }) s.actions i = _
      rw [← ha0id]
      exact cancelFold_hit (resolvedPair (pendingSnapshot s)).2 s.actions a0 hlosnd hl

/-- C2 witness: the amended statement at the concrete two-action conflict
state with the always-succeeding executor. -/
theorem C2_witness :
    stAB.queue.Nodup ∧
    ∀ i ∈ (processNextBatch execOk stAB).queue,
      ∃ a, (processNextBatch execOk stAB).actions i = some a ∧
        (a.status = .cancelled ∨ a.status = .failed) := by
  refine ⟨by decide, C2_tick_keeps_cancelled_and_failed_ids execOk stAB (by decide) ?_⟩
  intro i hi
  have hq : stAB.queue = ["A", "B"] := by decide
  rw [hq] at hi
  rcases List.mem_cons.mp hi with rfl | hi
  · exact ⟨actA, by decide, by decide, by decide⟩
  · rcases List.mem_cons.mp hi with rfl | hi
    · exact ⟨actB, by decide, by decide, by decide⟩
    · exact absurd hi (List.not_mem_nil i)

end CoordEngine